import Mathlib

/-!
Shallow embedding of the chicago-restaurant-openings-bot ingest pipeline:
the `Restaurant` record and its filter/format methods
(models/restaurant.py), the timestamp store (utils/time_utils.py), the
rate-limited Bluesky publisher (services/bluesky_service.py), the fetch
collaborator wrapper (services/chicago_data_service.py), and the
per-cycle orchestrator (bot.py, `process_new_restaurants`).

Timestamps and the wall clock are modelled as natural numbers (seconds).
Sleeping advances the clock; the external `send_post` call is an oracle
`Nat → Bool` indexed by the global count of attempts made so far.
-/

namespace ChicagoBot

/-- Filter configuration: the `filters` dict of config.py.  A key missing
from the dict reads as `[]` via `filters.get(key, [])`, so an empty list
models an absent rule set. -/
structure Filters where
  excluded_license_types : List String := []
  included_wards : List String := []
  included_zip_codes : List String := []
deriving Repr, DecidableEq

/-- Feature flags (config.py `FeatureFlags`), restricted to the fields the
pipeline reads. -/
structure FeatureFlags where
  include_ward : Bool := true
  include_square_footage : Bool := true
  include_business_activity : Bool := true
  use_emojis : Bool := true
  add_hashtags : Bool := true
  auto_retry : Bool := true
deriving Repr, DecidableEq

/-- Combined configuration: the fields of config.py `Config` plus the
settings BlueskyService.__init__ derives from the YAML config
(`throttling.enabled`, `throttling.min_delay_between_posts`,
`error_handling.retry_delay`, `error_handling.max_retries`). -/
structure Config where
  features : FeatureFlags := {}
  hashtags : List String := []
  post_template : List (String × String) := []
  filters : Filters := {}
  throttling_enabled : Bool := true
  min_delay : Nat := 2
  retry_delay : Nat := 300
  max_retries : Nat := 3
deriving Repr, DecidableEq

/-- models/restaurant.py `Restaurant`.  Optional fields are `Option`;
`application_date` is a timestamp (seconds). -/
structure Restaurant where
  name : String
  address : String
  zip_code : String
  license_description : String
  business_activity : Option String := none
  square_footage : Option String := none
  application_date : Nat := 0
  ward : Option String := none
deriving Repr, DecidableEq

/-- Python truthiness of an `Optional[str]`: `None` and the empty string
are falsy. -/
def optTruthy : Option String → Bool
  | none => false
  | some s => !s.isEmpty

/-- Python `x in l` for an optional value against a list of strings:
`None in l` is `False` when `l` holds only strings. -/
def optMem : Option String → List String → Bool
  | none, _ => false
  | some s, l => l.contains s

/-- Python `template.get(key, default)` on the post-template dict. -/
def dictGet (template : List (String × String)) (key default : String) : String :=
  match template.find? (fun p => p.1 = key) with
  | some p => p.2
  | none => default

/-- models/restaurant.py `Restaurant.passes_filters` (lines 66-91):
three independent checks, each skipped when its rule list is empty. -/
def Restaurant.passes_filters (r : Restaurant) (filters : Filters) : Bool :=
  if !filters.excluded_license_types.isEmpty &&
      filters.excluded_license_types.contains r.license_description then
    false
  else if !filters.included_wards.isEmpty &&
      !(optMem r.ward filters.included_wards) then
    false
  else if !filters.included_zip_codes.isEmpty &&
      !(filters.included_zip_codes.contains r.zip_code) then
    false
  else
    true

/-- models/restaurant.py `Restaurant.format_announcement` (lines 18-64):
header, name, address, then three optional sections gated on a feature
toggle AND truthiness of the field, joined by newlines, with an optional
hashtag trailer. -/
def Restaurant.format_announcement (r : Restaurant) (config : Config) : String :=
  let template := config.post_template
  let features := config.features
  let parts : List String := [dictGet template "header" "🆕 New Restaurant Alert!\n"]
  let namePfx := if features.use_emojis then dictGet template "name_prefix" "🍽️" else ""
  let parts := parts ++ [namePfx ++ " " ++ r.name]
  let addrPfx := if features.use_emojis then dictGet template "address_prefix" "📍" else ""
  let parts := parts ++ [addrPfx ++ " " ++ r.address ++ ", Chicago IL " ++ r.zip_code]
  let parts := parts ++
    (if features.include_business_activity && optTruthy r.business_activity then
      let activityPfx := if features.use_emojis then dictGet template "activity_prefix" "🍳" else ""
      [activityPfx ++ " " ++ (r.business_activity.getD "")]
    else [])
  let parts := parts ++
    (if features.include_square_footage && optTruthy r.square_footage then
      let sqftPfx := if features.use_emojis then dictGet template "square_footage_prefix" "📐" else ""
      [sqftPfx ++ " " ++ (r.square_footage.getD "") ++ " sq ft"]
    else [])
  let parts := parts ++
    (if features.include_ward && optTruthy r.ward then
      let wardPfx := if features.use_emojis then dictGet template "ward_prefix" "📍" else ""
      [wardPfx ++ " Located in Ward " ++ (r.ward.getD "")]
    else [])
  let announcement := String.intercalate "\n" parts
  if features.add_hashtags && !config.hashtags.isEmpty then
    announcement ++ "\n\n" ++ String.intercalate " " (config.hashtags.map (fun tag => "#" ++ tag))
  else
    announcement

/-! ## Timestamp store (utils/time_utils.py `TimestampManager`)

The persisted file is modelled as `Option String` (`none` = missing file).
`datetime.isoformat` / `datetime.fromisoformat` become a decimal rendering
of the `Nat` timestamp and its parser; the parser rejects empty or
non-digit content, modelling `fromisoformat` raising on corrupt text. -/

/-- Little-endian base-10 digits of `n`, with explicit fuel so that the
definition is structurally recursive (any `fuel ≥ n` gives the digits). -/
def toDigitsRev : Nat → Nat → List Nat
  | 0, _ => []
  | fuel + 1, n => if n = 0 then [] else n % 10 :: toDigitsRev fuel (n / 10)

/-- Render a timestamp to its decimal text form (the model of
`datetime.isoformat`). -/
def isoformat (t : Nat) : String :=
  if t = 0 then "0"
  else String.mk (((toDigitsRev t t).reverse).map Nat.digitChar)

/-- Parse the text form back to a timestamp; `none` models
`datetime.fromisoformat` raising on malformed input. -/
def fromisoformat (s : String) : Option Nat :=
  if s.data ≠ [] ∧ s.data.all Char.isDigit then
    some (Nat.ofDigits 10 ((s.data.map (fun c => c.toNat - 48)).reverse))
  else
    none

/-- time_utils.py `TimestampManager.load_timestamp` (lines 23-37): read
and parse the file; any failure (missing file, corrupt content) is caught
and the current wall-clock time `now` is returned instead. -/
def load_timestamp (store : Option String) (now : Nat) : Nat :=
  match store with
  | none => now
  | some s =>
    match fromisoformat s with
    | some t => t
    | none => now

/-- time_utils.py `TimestampManager.save_timestamp` (lines 39-50): write
the ISO form of the timestamp to the file. -/
def save_timestamp (timestamp : Nat) (_store : Option String) : Option String :=
  some (isoformat timestamp)

/-! ## Rate-limited publisher (services/bluesky_service.py `BlueskyService`)

Mutable service state plus the wall clock.  `attempt_times` records the
clock value at every external `send_post` call (in order);
`success_times` records it for the successful calls.  The external
network is an oracle `world : Nat → Bool` giving the outcome of the n-th
`send_post` call overall (indexed by `attempt_times.length` at call
time).  `time.sleep` advances the clock. -/

@[ext]
structure BSState where
  last_post_time : Nat := 0
  now : Nat := 0
  attempt_times : List Nat := []
  success_times : List Nat := []
deriving Repr, DecidableEq

/-- bluesky_service.py `BlueskyService._enforce_rate_limit` (lines
53-60): when throttling is enabled and less than `min_delay` has elapsed
since `last_post_time`, sleep for the remainder. -/
def enforce_rate_limit (config : Config) (s : BSState) : BSState :=
  if config.throttling_enabled then
    let elapsed := s.now - s.last_post_time
    if elapsed < config.min_delay then
      { s with now := s.now + (config.min_delay - elapsed) }
    else s
  else s

/-- The retry loop of bluesky_service.py `BlueskyService.post_restaurant`
(lines 79-112): `retries = 0; while retries <= max_retries:` — enforce
rate limiting, format, `send_post`; on success record `last_post_time`
and return `True`; on failure increment `retries` and, if `auto_retry`
holds and budget remains, sleep `retry_delay` and loop, else break and
return `False`.  `fuel` bounds the recursion; `post_restaurant` passes
`max_retries + 1`, which the loop never exhausts before its own exit
condition fires. -/
def post_loop (config : Config) (world : Nat → Bool) :
    Nat → Nat → BSState → Bool × BSState
  | 0, _, s => (false, s)
  | fuel + 1, retries, s =>
    let s1 := enforce_rate_limit config s
    let ok := world s1.attempt_times.length
    let s2 := { s1 with attempt_times := s1.attempt_times ++ [s1.now] }
    if ok then
      (true, { s2 with
                 last_post_time := s2.now,
                 success_times := s2.success_times ++ [s2.now] })
    else
      let retries' := retries + 1
      if config.features.auto_retry && decide (retries' ≤ config.max_retries) then
        post_loop config world fuel retries' { s2 with now := s2.now + config.retry_delay }
      else
        (false, s2)

/-- bluesky_service.py `BlueskyService.post_restaurant` (lines 62-112):
reject via filters first (returning `False` with no attempt), else run
the retry loop. -/
def post_restaurant (config : Config) (world : Nat → Bool) (r : Restaurant)
    (s : BSState) : Bool × BSState :=
  if r.passes_filters config.filters then
    post_loop config world (config.max_retries + 1) 0 s
  else
    (false, s)

/-- The spec's tri-state per-record outcome (§3 "Publish Attempt
Outcome"), derived from the code-level behaviour: `skipped` iff the
filters reject, else `published`/`failed` by the boolean
`post_restaurant` returns. -/
inductive Outcome where
  | published
  | skipped
  | failed
deriving Repr, DecidableEq

/-- Classify one record's outcome (instrumentation over
`post_restaurant`; not separate code). -/
def outcome_of (config : Config) (world : Nat → Bool) (r : Restaurant)
    (s : BSState) : Outcome :=
  if r.passes_filters config.filters then
    if (post_restaurant config world r s).1 then .published else .failed
  else
    .skipped

/-! ## Ingest cycle (bot.py `ChicagoRestaurantBot.process_new_restaurants`)
and fetch collaborator (services/chicago_data_service.py). -/

/-- What happened inside `ChicagoDataService.get_new_restaurants` for one
cycle: a normal response, a `requests.RequestException` raised by the
HTTP call (a network error), or some other exception (e.g.
`datetime.fromisoformat` failing on a malformed record) that propagates
out of the method. -/
inductive FetchResult where
  | ok (rs : List Restaurant)
  | netError
  | raised
deriving Repr, DecidableEq

/-- chicago_data_service.py `ChicagoDataService.get_new_restaurants`
(lines 25-79): a `RequestException` is caught, logged, and turned into
the empty list (lines 75-79); any other exception propagates (`none`). -/
def get_new_restaurants (fetch : FetchResult) : Option (List Restaurant) :=
  match fetch with
  | .ok rs => some rs
  | .netError => some []
  | .raised => none

/-- The per-restaurant loop of bot.py lines 100-108: post each restaurant
in order, counting the successes. -/
def process_list (config : Config) (world : Nat → Bool) :
    List Restaurant → Nat → BSState → Nat × BSState
  | [], n, s => (n, s)
  | r :: rs, n, s =>
    let step := post_restaurant config world r s
    process_list config world rs (if step.1 then n + 1 else n) step.2

/-- bot.py `ChicagoRestaurantBot.process_new_restaurants` (lines 80-125):
load the watermark, fetch; if the fetch raised, the `except` block
returns 0 with the store untouched; otherwise post every returned
restaurant and then save `datetime.now()` (the clock after processing) as
the new watermark.  Returns (successful_posts, store, service state). -/
def process_new_restaurants (config : Config) (world : Nat → Bool)
    (fetch : FetchResult) (store : Option String) (s : BSState) :
    Nat × Option String × BSState :=
  let _last_check := load_timestamp store s.now
  match get_new_restaurants fetch with
  | none => (0, store, s)
  | some rs =>
    let done := process_list config world rs 0 s
    (done.1, save_timestamp done.2.now store, done.2)

/-- One scheduler iteration's inputs: the wall-clock time that passes
before the cycle runs (the `time.sleep(check_interval)` between cycles)
and the fetch collaborator's behaviour for the cycle. -/
structure CycleInput where
  delta : Nat
  fetch : FetchResult

/-- Run a sequence of ingest cycles (the scheduler loop of bot.py
`run`, lines 140-156, specialised to the state the cycles thread:
timestamp store and publisher state). -/
def run_cycles (config : Config) (world : Nat → Bool) :
    List CycleInput → Option String × BSState → Option String × BSState
  | [], st => st
  | i :: is, (store, s) =>
    let s' := { s with now := s.now + i.delta }
    let done := process_new_restaurants config world i.fetch store s'
    run_cycles config world is (done.2.1, done.2.2)

/-- The per-record outcome trace of one cycle's loop (instrumentation of
`process_list`): the outcome of each record in order, threading the
publisher state exactly as the loop does. -/
def outcomes_list (config : Config) (world : Nat → Bool) :
    List Restaurant → BSState → List Outcome
  | [], _ => []
  | r :: rs, s =>
    outcome_of config world r s ::
      outcomes_list config world rs (post_restaurant config world r s).2

/-- Consecutive elements at least `T` apart (spec §8 "Rate-limit
spacing" for the list of successful external-call timestamps). -/
def spaced (T : Nat) (l : List Nat) : Prop :=
  List.Chain' (fun a b => a + T ≤ b) l

/-- State invariant of the publisher: successful calls are spaced,
`last_post_time` is at or after every recorded success, and the clock is
at or after `last_post_time`. -/
def RateInv (config : Config) (s : BSState) : Prop :=
  spaced config.min_delay s.success_times ∧
  (∀ t ∈ s.success_times, t ≤ s.last_post_time) ∧
  s.last_post_time ≤ s.now

/-- The watermark value the store currently holds, if its content
parses. -/
def wmVal (store : Option String) : Option Nat :=
  store.bind fromisoformat

/-- Store invariant at wall-clock time `now`: the store holds the ISO
form of some timestamp that is not in the future.  Established by
`TimestampManager.__init__` (which saves `datetime.now()` when the file
is missing) and preserved by every cycle. -/
def WmInv (store : Option String) (now : Nat) : Prop :=
  ∃ t, store = some (isoformat t) ∧ t ≤ now

/-! ## Helper lemmas -/

theorem digitChar_isDigit {d : Nat} (hd : d < 10) : (Nat.digitChar d).isDigit = true := by
  interval_cases d <;> decide

theorem digitChar_toNat {d : Nat} (hd : d < 10) : (Nat.digitChar d).toNat - 48 = d := by
  interval_cases d <;> decide

theorem toDigitsRev_eq_digits : ∀ (fuel n : Nat), n ≤ fuel →
    toDigitsRev fuel n = Nat.digits 10 n := by
  intro fuel
  induction fuel with
  | zero =>
    intro n hn
    interval_cases n
    simp [toDigitsRev]
  | succ fuel ih =>
    intro n hn
    by_cases h0 : n = 0
    · subst h0
      simp [toDigitsRev]
    · have hdiv : n / 10 < n := Nat.div_lt_self (Nat.pos_of_ne_zero h0) (by norm_num)
      simp only [toDigitsRev, if_neg h0]
      rw [ih (n / 10) (by omega),
        Nat.digits_def' (by norm_num : (1 : Nat) < 10) (Nat.pos_of_ne_zero h0)]

theorem fromisoformat_isoformat (t : Nat) : fromisoformat (isoformat t) = some t := by
  by_cases ht : t = 0
  · subst ht; decide
  · have hlt : ∀ d ∈ (Nat.digits 10 t).reverse, d < 10 := by
      intro d hd
      exact Nat.digits_lt_base (by norm_num) (List.mem_reverse.mp hd)
    have hdata : (isoformat t).data = ((Nat.digits 10 t).reverse).map Nat.digitChar := by
      simp [isoformat, ht, toDigitsRev_eq_digits t t (le_refl t)]
    have hcond : (isoformat t).data ≠ [] ∧ (isoformat t).data.all Char.isDigit := by
      constructor
      · rw [hdata]
        simp [Nat.digits_ne_nil_iff_ne_zero.mpr ht]
      · rw [hdata, List.all_eq_true]
        intro c hc
        rcases List.mem_map.mp hc with ⟨d, hd, rfl⟩
        exact digitChar_isDigit (hlt d hd)
    have hback : (((isoformat t).data.map (fun c => c.toNat - 48)).reverse) = Nat.digits 10 t := by
      rw [hdata, List.map_map]
      have hmap : ((Nat.digits 10 t).reverse).map ((fun c => c.toNat - 48) ∘ Nat.digitChar)
          = ((Nat.digits 10 t).reverse).map id := by
        apply List.map_congr_left
        intro d hd
        simpa using digitChar_toNat (hlt d hd)
      rw [hmap, List.map_id, List.reverse_reverse]
    simp only [fromisoformat, if_pos hcond, hback, Nat.ofDigits_digits]

theorem optMem_eq_false {o : Option String} {l : List String} :
    optMem o l = false ↔ ∀ w ∈ l, o ≠ some w := by
  cases o <;> simp [optMem, List.forall_mem_ne]

theorem outcome_published_iff (c : Config) (w : Nat → Bool) (r : Restaurant) (s : BSState) :
    outcome_of c w r s = .published ↔ (post_restaurant c w r s).1 = true := by
  by_cases h : r.passes_filters c.filters
  · by_cases hb : (post_restaurant c w r s).1 <;> simp [outcome_of, h, hb]
  · simp [outcome_of, h, post_restaurant]

theorem process_list_count (c : Config) (w : Nat → Bool) :
    ∀ (rs : List Restaurant) (n : Nat) (s : BSState),
      (process_list c w rs n s).1 = n + (outcomes_list c w rs s).count .published
  | [], n, s => by simp [process_list, outcomes_list]
  | r :: rs, n, s => by
    simp only [process_list, outcomes_list]
    rw [process_list_count c w rs _ _, List.count_cons]
    by_cases hb : (post_restaurant c w r s).1
    all_goals simp [hb, outcome_published_iff c w r s, beq_iff_eq]
    all_goals omega

theorem enforce_rate_limit_off {c : Config} (h : c.throttling_enabled = false) (s : BSState) :
    enforce_rate_limit c s = s := by
  simp [enforce_rate_limit, h]

theorem enforce_rate_limit_fields (c : Config) (s : BSState) :
    (enforce_rate_limit c s).attempt_times = s.attempt_times ∧
    (enforce_rate_limit c s).success_times = s.success_times ∧
    (enforce_rate_limit c s).last_post_time = s.last_post_time ∧
    s.now ≤ (enforce_rate_limit c s).now := by
  by_cases h1 : c.throttling_enabled
  · by_cases h2 : s.now - s.last_post_time < c.min_delay <;>
      simp [enforce_rate_limit, h1, h2]
  · simp [enforce_rate_limit, h1]

theorem enforce_rate_limit_spacing_bound {c : Config} (hthr : c.throttling_enabled = true)
    {s : BSState} (h : s.last_post_time ≤ s.now) :
    s.last_post_time + c.min_delay ≤ (enforce_rate_limit c s).now := by
  by_cases h2 : s.now - s.last_post_time < c.min_delay <;>
    simp [enforce_rate_limit, hthr, h2] <;> omega

theorem post_loop_attempts_mono (c : Config) (w : Nat → Bool) :
    ∀ (fuel retries : Nat) (s : BSState),
      s.attempt_times.length ≤ (post_loop c w fuel retries s).2.attempt_times.length := by
  intro fuel
  induction fuel with
  | zero => intro retries s; simp [post_loop]
  | succ fuel ih =>
    intro retries s
    have hf := enforce_rate_limit_fields c s
    simp only [post_loop, hf.1]
    by_cases hok : w s.attempt_times.length = true
    · simp [hok]
    · simp only [hok, if_false, Bool.false_eq_true]
      by_cases hc : (c.features.auto_retry && decide (retries + 1 ≤ c.max_retries)) = true
      · rw [if_pos hc]
        refine le_trans ?_ (ih (retries + 1) _)
        simp
      · rw [if_neg hc]
        simp

theorem post_loop_attempts_strict (c : Config) (w : Nat → Bool)
    (fuel retries : Nat) (s : BSState) :
    s.attempt_times.length < (post_loop c w (fuel + 1) retries s).2.attempt_times.length := by
  have hf := enforce_rate_limit_fields c s
  simp only [post_loop, hf.1]
  by_cases hok : w s.attempt_times.length = true
  · simp [hok]
  · simp only [hok, if_false, Bool.false_eq_true]
    by_cases hc : (c.features.auto_retry && decide (retries + 1 ≤ c.max_retries)) = true
    · rw [if_pos hc]
      refine lt_of_lt_of_le ?_ (post_loop_attempts_mono c w fuel (retries + 1) _)
      simp
    · rw [if_neg hc]
      simp

theorem post_loop_fail_length (c : Config) (w : Nat → Bool)
    (hauto : c.features.auto_retry = true) :
    ∀ (fuel retries : Nat) (s : BSState), fuel + retries = c.max_retries + 1 →
      (post_loop c w fuel retries s).1 = false →
      (post_loop c w fuel retries s).2.attempt_times.length
        = s.attempt_times.length + fuel := by
  intro fuel
  induction fuel with
  | zero => intro retries s _ _; simp [post_loop]
  | succ fuel ih =>
    intro retries s hb hfalse
    have hf := enforce_rate_limit_fields c s
    simp only [post_loop, hf.1] at hfalse ⊢
    by_cases hok : w s.attempt_times.length = true
    · rw [if_pos (by simp [hok])] at hfalse
      simp at hfalse
    · rw [if_neg (by simp [hok])] at hfalse ⊢
      by_cases hc : (c.features.auto_retry && decide (retries + 1 ≤ c.max_retries)) = true
      · rw [if_pos hc] at hfalse ⊢
        rw [ih (retries + 1) _ (by omega) hfalse]
        simp
        omega
      · rw [if_neg hc] at hfalse ⊢
        have hnle : ¬ (retries + 1 ≤ c.max_retries) := by
          intro hle
          exact hc (by simp [hauto, hle])
        have hfuel : fuel = 0 := by omega
        subst hfuel
        simp

theorem post_loop_allfail (c : Config) (w : Nat → Bool)
    (hauto : c.features.auto_retry = true)
    (hthr : c.throttling_enabled = false) (hw : ∀ n, w n = false) :
    ∀ (fuel retries : Nat), fuel + retries = c.max_retries + 1 → ∀ s : BSState,
      post_loop c w fuel retries s =
        (false, { s with
                    now := s.now + (fuel - 1) * c.retry_delay,
                    attempt_times := s.attempt_times ++
                      (List.range fuel).map (fun i => s.now + i * c.retry_delay) }) := by
  intro fuel
  induction fuel with
  | zero => intro retries _ s; simp [post_loop]
  | succ fuel ih =>
    intro retries hb s
    simp only [post_loop, enforce_rate_limit_off hthr, hw, if_false, Bool.false_eq_true]
    by_cases hc : (c.features.auto_retry && decide (retries + 1 ≤ c.max_retries)) = true
    · rw [if_pos hc]
      have hfuel : 1 ≤ fuel := by
        have hle : retries + 1 ≤ c.max_retries := by
          rcases Bool.and_eq_true_iff.mp hc with ⟨_, h2⟩
          exact of_decide_eq_true h2
        omega
      obtain ⟨g, rfl⟩ : ∃ g, fuel = g + 1 := ⟨fuel - 1, by omega⟩
      rw [ih (retries + 1) (by omega)]
      refine Prod.ext rfl ?_
      ext : 1
      · rfl
      · show s.now + c.retry_delay + (g + 1 - 1) * c.retry_delay
            = s.now + (g + 1 + 1 - 1) * c.retry_delay
        simp [Nat.succ_mul]
        ring
      · show s.attempt_times ++ [s.now] ++
            (List.range (g + 1)).map (fun i => s.now + c.retry_delay + i * c.retry_delay)
            = s.attempt_times ++ (List.range (g + 1 + 1)).map (fun i => s.now + i * c.retry_delay)
        have hmap : (List.range (g + 1)).map (fun i => s.now + c.retry_delay + i * c.retry_delay)
            = (List.range (g + 1)).map ((fun i => s.now + i * c.retry_delay) ∘ Nat.succ) := by
          apply List.map_congr_left
          intro i _
          show s.now + c.retry_delay + i * c.retry_delay = s.now + (i + 1) * c.retry_delay
          ring
        rw [hmap, List.append_assoc, ← List.map_map]
        conv_rhs => rw [List.range_succ_eq_map]
        simp
      · rfl
    · rw [if_neg hc]
      have hnle : ¬ (retries + 1 ≤ c.max_retries) := by
        intro hle
        exact hc (by simp [hauto, hle])
      have hfuel : fuel = 0 := by omega
      subst hfuel
      simp [List.range_succ]

theorem post_loop_noretry_len (c : Config) (w : Nat → Bool)
    (hauto : c.features.auto_retry = false) (fuel retries : Nat) (s : BSState)
    (hw : w s.attempt_times.length = false) :
    (post_loop c w (fuel + 1) retries s).1 = false ∧
    (post_loop c w (fuel + 1) retries s).2.attempt_times.length
      = s.attempt_times.length + 1 := by
  have hf := enforce_rate_limit_fields c s
  simp only [post_loop, hf.1, hw, if_false, Bool.false_eq_true]
  rw [if_neg (by simp [hauto])]
  simp

theorem post_loop_now_mono (c : Config) (w : Nat → Bool) :
    ∀ (fuel retries : Nat) (s : BSState),
      s.now ≤ (post_loop c w fuel retries s).2.now := by
  intro fuel
  induction fuel with
  | zero => intro retries s; simp [post_loop]
  | succ fuel ih =>
    intro retries s
    have hf := enforce_rate_limit_fields c s
    simp only [post_loop, hf.1]
    by_cases hok : w s.attempt_times.length = true
    · simp only [hok, if_true]
      exact hf.2.2.2
    · simp only [hok, if_false, Bool.false_eq_true]
      by_cases hc : (c.features.auto_retry && decide (retries + 1 ≤ c.max_retries)) = true
      · rw [if_pos hc]
        refine le_trans ?_ (ih (retries + 1) _)
        exact le_trans hf.2.2.2 (Nat.le_add_right _ _)
      · rw [if_neg hc]
        exact hf.2.2.2

theorem post_loop_lpt (c : Config) (w : Nat → Bool) :
    ∀ (fuel retries : Nat) (s : BSState),
      ((post_loop c w fuel retries s).1 = false →
        (post_loop c w fuel retries s).2.last_post_time = s.last_post_time ∧
        (post_loop c w fuel retries s).2.success_times = s.success_times) ∧
      ((post_loop c w fuel retries s).1 = true →
        (post_loop c w fuel retries s).2.success_times
          = s.success_times ++ [(post_loop c w fuel retries s).2.last_post_time]) := by
  intro fuel
  induction fuel with
  | zero => intro retries s; simp [post_loop]
  | succ fuel ih =>
    intro retries s
    have hf := enforce_rate_limit_fields c s
    simp only [post_loop, hf.1]
    by_cases hok : w s.attempt_times.length = true
    · simp [hok, hf.2.1]
    · simp only [hok, if_false, Bool.false_eq_true]
      by_cases hc : (c.features.auto_retry && decide (retries + 1 ≤ c.max_retries)) = true
      · rw [if_pos hc]
        have hrec := ih (retries + 1)
          { enforce_rate_limit c s with
              attempt_times := s.attempt_times ++ [(enforce_rate_limit c s).now],
              now := (enforce_rate_limit c s).now + c.retry_delay }
        constructor
        · intro hfalse
          rcases hrec.1 hfalse with ⟨h1, h2⟩
          exact ⟨h1.trans hf.2.2.1, h2.trans hf.2.1⟩
        · intro htrue
          have hs := hrec.2 htrue
          rw [hs]
          simp [hf.2.1]
      · rw [if_neg hc]
        simp [hf.2.1, hf.2.2.1]

theorem spaced_append_last {T : Nat} {l : List Nat} {x : Nat}
    (hl : spaced T l) (hx : ∀ t ∈ l, t + T ≤ x) :
    spaced T (l ++ [x]) := by
  refine List.Chain'.append hl (List.chain'_singleton x) ?_
  intro a ha b hb
  simp at hb
  subst hb
  rcases List.mem_getLast?_eq_getLast ha with ⟨hne, rfl⟩
  exact hx _ (List.getLast_mem hne)

theorem post_loop_rate_inv (c : Config) (w : Nat → Bool)
    (hthr : c.throttling_enabled = true) :
    ∀ (fuel retries : Nat) (s : BSState), RateInv c s →
      RateInv c (post_loop c w fuel retries s).2 := by
  intro fuel
  induction fuel with
  | zero => intro retries s h; simpa [post_loop] using h
  | succ fuel ih =>
    intro retries s h
    obtain ⟨hsp, hle, hnow⟩ := h
    have hf := enforce_rate_limit_fields c s
    have hbound := enforce_rate_limit_spacing_bound hthr hnow
    simp only [post_loop, hf.1]
    by_cases hok : w s.attempt_times.length = true
    · simp only [hok, if_true]
      refine ⟨?_, ?_, ?_⟩
      · simp only [hf.2.1]
        refine spaced_append_last hsp ?_
        intro t ht
        calc t + c.min_delay ≤ s.last_post_time + c.min_delay :=
              Nat.add_le_add_right (hle t ht) _
          _ ≤ (enforce_rate_limit c s).now := hbound
      · intro t ht
        simp only [hf.2.1] at ht
        rcases List.mem_append.mp ht with h1 | h1
        · calc t ≤ s.last_post_time := hle t h1
            _ ≤ s.last_post_time + c.min_delay := Nat.le_add_right _ _
            _ ≤ (enforce_rate_limit c s).now := hbound
        · simp at h1
          subst h1
          simp
      · exact le_refl _
    · simp only [hok, if_false, Bool.false_eq_true]
      by_cases hc : (c.features.auto_retry && decide (retries + 1 ≤ c.max_retries)) = true
      · rw [if_pos hc]
        refine ih (retries + 1) _ ⟨?_, ?_, ?_⟩
        · simpa [hf.2.1] using hsp
        · intro t ht
          simp only [hf.2.1] at ht
          exact (hle t ht).trans (le_of_eq hf.2.2.1.symm)
        · simp only [hf.2.2.1]
          exact le_trans (hnow.trans hf.2.2.2) (Nat.le_add_right _ _)
      · rw [if_neg hc]
        refine ⟨?_, ?_, ?_⟩
        · simpa [hf.2.1] using hsp
        · intro t ht
          simp only [hf.2.1] at ht
          exact (hle t ht).trans (le_of_eq hf.2.2.1.symm)
        · simp only [hf.2.2.1]
          exact hnow.trans hf.2.2.2


theorem post_restaurant_rate_inv (c : Config) (w : Nat → Bool)
    (hthr : c.throttling_enabled = true) (r : Restaurant) (s : BSState)
    (h : RateInv c s) : RateInv c (post_restaurant c w r s).2 := by
  unfold post_restaurant
  by_cases hp : r.passes_filters c.filters = true
  · rw [if_pos hp]
    exact post_loop_rate_inv c w hthr _ _ _ h
  · rw [if_neg hp]
    exact h

theorem post_restaurant_now_mono (c : Config) (w : Nat → Bool)
    (r : Restaurant) (s : BSState) :
    s.now ≤ (post_restaurant c w r s).2.now := by
  unfold post_restaurant
  by_cases hp : r.passes_filters c.filters = true
  · rw [if_pos hp]
    exact post_loop_now_mono c w _ _ _
  · rw [if_neg hp]

theorem process_list_rate_inv (c : Config) (w : Nat → Bool)
    (hthr : c.throttling_enabled = true) :
    ∀ (rs : List Restaurant) (n : Nat) (s : BSState), RateInv c s →
      RateInv c (process_list c w rs n s).2
  | [], n, s, h => by simpa [process_list] using h
  | r :: rs, n, s, h => by
    simp only [process_list]
    exact process_list_rate_inv c w hthr rs _ _ (post_restaurant_rate_inv c w hthr r s h)

theorem process_list_now_mono (c : Config) (w : Nat → Bool) :
    ∀ (rs : List Restaurant) (n : Nat) (s : BSState),
      s.now ≤ (process_list c w rs n s).2.now
  | [], n, s => by simp [process_list]
  | r :: rs, n, s => by
    simp only [process_list]
    exact le_trans (post_restaurant_now_mono c w r s)
      (process_list_now_mono c w rs _ _)

theorem process_cycle_rate_inv (c : Config) (w : Nat → Bool)
    (hthr : c.throttling_enabled = true) (fetch : FetchResult)
    (store : Option String) (s : BSState) (h : RateInv c s) :
    RateInv c (process_new_restaurants c w fetch store s).2.2 := by
  unfold process_new_restaurants
  cases get_new_restaurants fetch with
  | none => simpa using h
  | some rs => simpa using process_list_rate_inv c w hthr rs 0 s h

theorem rate_inv_shift (c : Config) (s : BSState) (d : Nat) (h : RateInv c s) :
    RateInv c { s with now := s.now + d } := by
  obtain ⟨h1, h2, h3⟩ := h
  exact ⟨h1, h2, le_trans h3 (Nat.le_add_right _ _)⟩

theorem run_cycles_rate_inv (c : Config) (w : Nat → Bool)
    (hthr : c.throttling_enabled = true) :
    ∀ (inputs : List CycleInput) (store : Option String) (s : BSState), RateInv c s →
      RateInv c (run_cycles c w inputs (store, s)).2
  | [], store, s, h => by simpa [run_cycles] using h
  | i :: is, store, s, h => by
    simp only [run_cycles]
    exact run_cycles_rate_inv c w hthr is _ _
      (process_cycle_rate_inv c w hthr i.fetch store _ (rate_inv_shift c s i.delta h))


theorem run_cycles_append (c : Config) (w : Nat → Bool) :
    ∀ (l1 l2 : List CycleInput) (st : Option String × BSState),
      run_cycles c w (l1 ++ l2) st = run_cycles c w l2 (run_cycles c w l1 st)
  | [], l2, st => rfl
  | i :: is, l2, (store, s) => by
    simp only [List.cons_append, run_cycles]
    exact run_cycles_append c w is l2 _

theorem wm_inv_shift {store : Option String} {now : Nat} (d : Nat)
    (h : WmInv store now) : WmInv store (now + d) := by
  obtain ⟨t, h1, h2⟩ := h
  exact ⟨t, h1, le_trans h2 (Nat.le_add_right _ _)⟩

theorem wm_step (c : Config) (w : Nat → Bool) (fetch : FetchResult)
    (store : Option String) (s : BSState) (h : WmInv store s.now) :
    WmInv (process_new_restaurants c w fetch store s).2.1
      (process_new_restaurants c w fetch store s).2.2.now ∧
    (∀ t t', wmVal store = some t →
      wmVal (process_new_restaurants c w fetch store s).2.1 = some t' → t ≤ t') := by
  obtain ⟨t0, hst, hle⟩ := h
  unfold process_new_restaurants
  cases get_new_restaurants fetch with
  | none =>
    refine ⟨⟨t0, hst, hle⟩, ?_⟩
    intro t t' h1 h2
    rw [h1] at h2
    injection h2 with h2
    omega
  | some rs =>
    refine ⟨⟨(process_list c w rs 0 s).2.now, rfl, le_refl _⟩, ?_⟩
    intro t t' h1 h2
    rw [hst] at h1
    simp only [wmVal, Option.some_bind, fromisoformat_isoformat] at h1
    simp only [save_timestamp, wmVal, Option.some_bind, fromisoformat_isoformat] at h2
    injection h1 with h1
    injection h2 with h2
    subst h1
    subst h2
    exact le_trans hle (process_list_now_mono c w rs 0 s)

theorem run_cycles_wm_inv (c : Config) (w : Nat → Bool) :
    ∀ (inputs : List CycleInput) (store : Option String) (s : BSState),
      WmInv store s.now →
      WmInv (run_cycles c w inputs (store, s)).1 (run_cycles c w inputs (store, s)).2.now
  | [], store, s, h => by simpa [run_cycles] using h
  | i :: is, store, s, h => by
    simp only [run_cycles]
    exact run_cycles_wm_inv c w is _ _
      (wm_step c w i.fetch store { s with now := s.now + i.delta } (wm_inv_shift i.delta h)).1

/-! ## Claim theorems -/

/-- C8: for every timestamp `ts`, saving `ts` through the watermark
store and loading it back (in any later process, at any wall-clock time)
returns exactly `ts`: the ISO text form round-trips. -/
theorem save_load_roundtrip (ts : Nat) (store : Option String) (now : Nat) :
    load_timestamp (save_timestamp ts store) now = ts := by
  simp [save_timestamp, load_timestamp, fromisoformat_isoformat]

theorem outcome_skipped_iff (c : Config) (w : Nat → Bool) (r : Restaurant) (s : BSState) :
    outcome_of c w r s = .skipped ↔ r.passes_filters c.filters = false := by
  by_cases h : r.passes_filters c.filters
  · by_cases hb : (post_restaurant c w r s).1 <;> simp [outcome_of, h, hb]
  · simp [outcome_of, h]

theorem outcomes_forall2 (c : Config) (w : Nat → Bool) :
    ∀ (rs : List Restaurant) (s : BSState),
      List.Forall₂ (fun r o => o = Outcome.skipped ↔ r.passes_filters c.filters = false)
        rs (outcomes_list c w rs s)
  | [], _ => List.Forall₂.nil
  | r :: rs, s => by
    simp only [outcomes_list]
    exact List.Forall₂.cons (outcome_skipped_iff c w r s) (outcomes_forall2 c w rs _)

theorem post_restaurant_attempts (c : Config) (w : Nat → Bool) (r : Restaurant)
    (s : BSState) (h : r.passes_filters c.filters = true) :
    s.attempt_times.length < (post_restaurant c w r s).2.attempt_times.length := by
  unfold post_restaurant
  rw [if_pos h]
  exact post_loop_attempts_strict c w c.max_retries 0 s

/-- C1: the claim says a fetch failure (e.g. a network error) leaves the
watermark unchanged.  The code violates this for network errors:
`get_new_restaurants` catches `requests.RequestException` and returns the
empty list (chicago_data_service.py lines 75-79), indistinguishable from
a genuine zero-result fetch, so `process_new_restaurants` completes
normally and saves a fresh watermark.  This theorem evaluates the model
at the failing input: with a stored watermark of 50, a network-error
cycle at time 200 returns the zero summary but rewrites the store to 200;
only an exception that propagates out of the fetch (`raised`) leaves the
store at 50 as the claim requires. -/
theorem c1_network_error_advances_watermark :
    (process_new_restaurants ({} : Config) (fun _ => false) FetchResult.netError
        (some (isoformat 50)) { now := 200 }).1 = 0 ∧
    (process_new_restaurants ({} : Config) (fun _ => false) FetchResult.netError
        (some (isoformat 50)) { now := 200 }).2.1 = some (isoformat 200) ∧
    some (isoformat 200) ≠ some (isoformat 50) ∧
    (process_new_restaurants ({} : Config) (fun _ => false) FetchResult.raised
        (some (isoformat 50)) { now := 200 }).2.1 = some (isoformat 50) := by
  decide

/-- C2: across any sequence of ingest cycles from a valid store state,
the persisted watermark value after cycle n+1 is at least its value
after cycle n — the extra cycle may fetch records, return zero records
(`ok []` / `netError`), or raise (`raised`); in every case the parsed
store value never decreases. -/
theorem c2_watermark_monotone (c : Config) (w : Nat → Bool) (inputs : List CycleInput)
    (i : CycleInput) (store : Option String) (s : BSState) (t t' : Nat)
    (hInv : WmInv store s.now)
    (h1 : wmVal (run_cycles c w inputs (store, s)).1 = some t)
    (h2 : wmVal (run_cycles c w (inputs ++ [i]) (store, s)).1 = some t') :
    t ≤ t' := by
  rw [run_cycles_append] at h2
  have hmid := run_cycles_wm_inv c w inputs store s hInv
  set p := run_cycles c w inputs (store, s) with hp
  obtain ⟨store1, s1⟩ := p
  simp only [run_cycles] at h2
  exact (wm_step c w i.fetch store1 { s1 with now := s1.now + i.delta }
    (wm_inv_shift i.delta hmid)).2 t t' h1 h2

/-- Witness for C2: a stored watermark of 50 at time 100; the extra
cycle is a network-error fetch after a 10-second sleep, and the
watermark moves from 50 to 110. -/
theorem c2_witness :
    WmInv (some (isoformat 50)) ({ now := 100 } : BSState).now ∧
    wmVal (run_cycles ({} : Config) (fun _ => false) []
        (some (isoformat 50), { now := 100 })).1 = some 50 ∧
    wmVal (run_cycles ({} : Config) (fun _ => false) ([] ++ [⟨10, FetchResult.netError⟩])
        (some (isoformat 50), { now := 100 })).1 = some 110 ∧
    (50 : Nat) ≤ 110 :=
  ⟨⟨50, rfl, by decide⟩, by decide, by decide,
   c2_watermark_monotone ({} : Config) (fun _ => false) [] ⟨10, FetchResult.netError⟩
     (some (isoformat 50)) { now := 100 } 50 110
     ⟨50, rfl, by decide⟩ (by decide) (by decide)⟩

/-- C3: in a batch in which record k failed to publish (outcome
`failed`), the cycle still classifies every record: the outcome list
pairs with the input list (same length), a record's outcome is `skipped`
exactly when the filters reject it, and every record that passes the
filters gets at least one external publish attempt, whatever happened to
the records before it. -/
theorem c3_partial_failure_isolation (c : Config) (w : Nat → Bool) (rs : List Restaurant)
    (s : BSState) (k : Nat)
    (_hfail : (outcomes_list c w rs s)[k]? = some Outcome.failed) :
    List.Forall₂ (fun r o => o = Outcome.skipped ↔ r.passes_filters c.filters = false)
      rs (outcomes_list c w rs s) ∧
    (outcomes_list c w rs s).length = rs.length ∧
    (∀ (r : Restaurant) (s' : BSState), r.passes_filters c.filters = true →
      s'.attempt_times.length < (post_restaurant c w r s').2.attempt_times.length) := by
  refine ⟨outcomes_forall2 c w rs s, ?_, ?_⟩
  · exact (List.Forall₂.length_eq (outcomes_forall2 c w rs s)).symm
  · intro r s' h
    exact post_restaurant_attempts c w r s' h

/-- Witness for C3: two passing records, the external call failing on
attempts 0 and 1 and succeeding from attempt 2, so record 0 fails
(max_retries = 1 gives it two attempts) and record 1 is still attempted
and published. -/
theorem c3_witness :
    (outcomes_list { throttling_enabled := false, max_retries := 1, retry_delay := 0 }
        (fun n => decide (2 ≤ n))
        [{ name := "A", address := "B", zip_code := "60601", license_description := "RF" },
         { name := "C", address := "D", zip_code := "60601", license_description := "RF" }]
        {})[0]? = some Outcome.failed ∧
    (outcomes_list { throttling_enabled := false, max_retries := 1, retry_delay := 0 }
        (fun n => decide (2 ≤ n))
        [{ name := "A", address := "B", zip_code := "60601", license_description := "RF" },
         { name := "C", address := "D", zip_code := "60601", license_description := "RF" }]
        {}).length = 2 :=
  ⟨by decide,
   (c3_partial_failure_isolation { throttling_enabled := false, max_retries := 1, retry_delay := 0 }
      (fun n => decide (2 ≤ n))
      [{ name := "A", address := "B", zip_code := "60601", license_description := "RF" },
       { name := "C", address := "D", zip_code := "60601", license_description := "RF" }]
      {} 0 (by decide)).2.1⟩

/-- C4: for a record that passes the filters, (i) with auto-retry
enabled a `False` return means exactly `max_retries + 1` external
attempts were made (failure only after exhausting the budget); (ii) with
auto-retry enabled, throttling disabled and an always-failing network,
the run is exactly the closed form: `False`, attempts at
`now, now + retry_delay, now + 2·retry_delay, …` — a fixed, non-growing
delay between attempts; (iii) with auto-retry disabled and a failing
first attempt, it returns `False` after exactly one attempt. -/
theorem c4_retry_discipline (c : Config) (w : Nat → Bool) (r : Restaurant) (s : BSState)
    (hpass : r.passes_filters c.filters = true) :
    (c.features.auto_retry = true →
      (post_restaurant c w r s).1 = false →
      (post_restaurant c w r s).2.attempt_times.length
        = s.attempt_times.length + (c.max_retries + 1)) ∧
    (c.features.auto_retry = true → c.throttling_enabled = false → (∀ n, w n = false) →
      post_restaurant c w r s =
        (false, { s with
                    now := s.now + c.max_retries * c.retry_delay,
                    attempt_times := s.attempt_times ++
                      (List.range (c.max_retries + 1)).map
                        (fun i => s.now + i * c.retry_delay) })) ∧
    (c.features.auto_retry = false → w s.attempt_times.length = false →
      (post_restaurant c w r s).1 = false ∧
      (post_restaurant c w r s).2.attempt_times.length = s.attempt_times.length + 1) := by
  refine ⟨?_, ?_, ?_⟩
  · intro hauto hfalse
    unfold post_restaurant at hfalse ⊢
    rw [if_pos hpass] at hfalse ⊢
    have h := post_loop_fail_length c w hauto (c.max_retries + 1) 0 s (by omega) hfalse
    omega
  · intro hauto hthr hw
    unfold post_restaurant
    rw [if_pos hpass]
    rw [post_loop_allfail c w hauto hthr hw (c.max_retries + 1) 0 (by omega) s]
    simp
  · intro hauto hw
    unfold post_restaurant
    rw [if_pos hpass]
    exact post_loop_noretry_len c w hauto c.max_retries 0 s hw

/-- Witness for C4: max_retries = 2, retry_delay = 7, always-failing
network: three attempts at 100, 107, 114, then failure. -/
theorem c4_witness :
    ({ name := "A", address := "B", zip_code := "60601",
        license_description := "RF" } : Restaurant).passes_filters
      ({ throttling_enabled := false, max_retries := 2, retry_delay := 7 } : Config).filters
      = true ∧
    post_restaurant { throttling_enabled := false, max_retries := 2, retry_delay := 7 }
        (fun _ => false)
        { name := "A", address := "B", zip_code := "60601", license_description := "RF" }
        { now := 100 } =
      (false, { ({ now := 100 } : BSState) with
                  now := 100 + 2 * 7,
                  attempt_times := ([] : List Nat) ++
                    (List.range 3).map (fun i => 100 + i * 7) }) :=
  ⟨by decide,
   (c4_retry_discipline { throttling_enabled := false, max_retries := 2, retry_delay := 7 }
      (fun _ => false)
      { name := "A", address := "B", zip_code := "60601", license_description := "RF" }
      { now := 100 } (by decide)).2.1 rfl rfl (fun _ => rfl)⟩

/-- C5 counterexample: the claim says the publisher updates its internal
last-attempt timestamp on every attempt.  In the code,
`self.last_post_time = time.time()` (bluesky_service.py line 90) runs
only after a successful `send_post`: here an external attempt is made at
time 100 (recorded in `attempt_times`), yet `last_post_time` stays at
its prior value 5 and is not 100. -/
theorem c5_counterexample :
    (post_restaurant { features := { auto_retry := false }, throttling_enabled := false }
        (fun _ => false)
        { name := "A", address := "B", zip_code := "60601", license_description := "RF" }
        { last_post_time := 5, now := 100 }).2.attempt_times = [100] ∧
    (post_restaurant { features := { auto_retry := false }, throttling_enabled := false }
        (fun _ => false)
        { name := "A", address := "B", zip_code := "60601", license_description := "RF" }
        { last_post_time := 5, now := 100 }).2.last_post_time = 5 ∧
    ¬ (post_restaurant { features := { auto_retry := false }, throttling_enabled := false }
        (fun _ => false)
        { name := "A", address := "B", zip_code := "60601", license_description := "RF" }
        { last_post_time := 5, now := 100 }).2.last_post_time = 100 := by
  decide

/-- C5 amended: the publisher updates `last_post_time` only on
*successful* attempts: when `post_restaurant` returns `False` (filtered
out, or every attempt failed) `last_post_time` is unchanged, and when it
returns `True` the recorded successful call carries exactly the final
`last_post_time`. -/
theorem c5_update_policy (c : Config) (w : Nat → Bool) (r : Restaurant) (s : BSState) :
    ((post_restaurant c w r s).1 = false →
      (post_restaurant c w r s).2.last_post_time = s.last_post_time) ∧
    ((post_restaurant c w r s).1 = true →
      (post_restaurant c w r s).2.success_times
        = s.success_times ++ [(post_restaurant c w r s).2.last_post_time]) := by
  unfold post_restaurant
  by_cases hp : r.passes_filters c.filters = true
  · rw [if_pos hp]
    exact ⟨fun h => ((post_loop_lpt c w (c.max_retries + 1) 0 s).1 h).1,
           (post_loop_lpt c w (c.max_retries + 1) 0 s).2⟩
  · rw [if_neg hp]
    exact ⟨fun _ => rfl, fun h => by cases h⟩

/-- Witness for C5 (amended): a failing post leaves `last_post_time` at
its prior value 5. -/
theorem c5_witness :
    (post_restaurant { features := { auto_retry := false }, throttling_enabled := false }
        (fun _ => false)
        { name := "A", address := "B", zip_code := "60601", license_description := "RF" }
        { last_post_time := 5, now := 100 }).1 = false ∧
    (post_restaurant { features := { auto_retry := false }, throttling_enabled := false }
        (fun _ => false)
        { name := "A", address := "B", zip_code := "60601", license_description := "RF" }
        { last_post_time := 5, now := 100 }).2.last_post_time = 5 :=
  ⟨by decide,
   (c5_update_policy { features := { auto_retry := false }, throttling_enabled := false }
      (fun _ => false)
      { name := "A", address := "B", zip_code := "60601", license_description := "RF" }
      { last_post_time := 5, now := 100 }).1 (by decide)⟩

/-- C6: with throttling enabled, starting from any state satisfying the
publisher invariant, after any sequence of ingest cycles the timestamps
of consecutive successful external publish calls are at least
`min_delay` apart; with throttling disabled, `_enforce_rate_limit`
performs no wait at all (it is the identity on the state). -/
theorem c6_rate_limit_spacing (c : Config) (w : Nat → Bool) (inputs : List CycleInput)
    (store : Option String) (s : BSState) :
    (c.throttling_enabled = true → RateInv c s →
      spaced c.min_delay (run_cycles c w inputs (store, s)).2.success_times) ∧
    (c.throttling_enabled = false → ∀ s' : BSState, enforce_rate_limit c s' = s') := by
  constructor
  · intro hthr hinv
    exact (run_cycles_rate_inv c w hthr inputs store s hinv).1
  · intro hthr s'
    exact enforce_rate_limit_off hthr s'

/-- Witness for C6: three successful posts in one cycle with
`min_delay = 10` land at times 100, 110, 120 — spaced by 10. -/
theorem c6_witness :
    RateInv { min_delay := 10, max_retries := 0 } ({} : BSState) ∧
    spaced 10
      (run_cycles { min_delay := 10, max_retries := 0 } (fun _ => true)
          [⟨100, FetchResult.ok
              [{ name := "A", address := "B", zip_code := "60601", license_description := "RF" },
               { name := "A", address := "B", zip_code := "60601", license_description := "RF" },
               { name := "A", address := "B", zip_code := "60601", license_description := "RF" }]⟩]
          (none, {})).2.success_times := by
  have hinv : RateInv { min_delay := 10, max_retries := 0 } ({} : BSState) :=
    ⟨List.chain'_nil, fun t ht => absurd ht (List.not_mem_nil t), Nat.le_refl 0⟩
  exact ⟨hinv,
    (c6_rate_limit_spacing { min_delay := 10, max_retries := 0 } (fun _ => true) _ none {}).1
      rfl hinv⟩

/-- C7: `passes_filters` rejects exactly when (1) the exclusion list is
non-empty and the license type is a member, or (2) the ward allowlist is
non-empty and the (possibly absent) ward is not a member, or (3) the
postal-code allowlist is non-empty and the postal code is not a member;
otherwise it accepts, and the all-empty rule set accepts everything. -/
theorem c7_filters (r : Restaurant) (f : Filters) :
    (r.passes_filters f = false ↔
      (f.excluded_license_types ≠ [] ∧ r.license_description ∈ f.excluded_license_types) ∨
      (f.included_wards ≠ [] ∧ ∀ w ∈ f.included_wards, r.ward ≠ some w) ∨
      (f.included_zip_codes ≠ [] ∧ r.zip_code ∉ f.included_zip_codes)) ∧
    r.passes_filters ({} : Filters) = true := by
  constructor
  · unfold Restaurant.passes_filters
    split_ifs with h1 h2 h3 <;>
      (simp_all [optMem_eq_false, List.isEmpty_iff, List.eq_nil_iff_forall_not_mem]; try tauto)
  · simp [Restaurant.passes_filters]

/-- C9: rendering a record whose optional field (business activity,
square footage, or ward) is absent omits that section entirely: the
output with the corresponding feature toggle on equals the output with
it off, so no placeholder is emitted (and the total Lean function
witnesses that rendering never raises). -/
theorem c9_render_omission (r : Restaurant) (c : Config) :
    (r.business_activity = none →
      r.format_announcement
          { c with features := { c.features with include_business_activity := true } } =
        r.format_announcement
          { c with features := { c.features with include_business_activity := false } }) ∧
    (r.square_footage = none →
      r.format_announcement
          { c with features := { c.features with include_square_footage := true } } =
        r.format_announcement
          { c with features := { c.features with include_square_footage := false } }) ∧
    (r.ward = none →
      r.format_announcement
          { c with features := { c.features with include_ward := true } } =
        r.format_announcement
          { c with features := { c.features with include_ward := false } }) := by
  refine ⟨fun h => ?_, fun h => ?_, fun h => ?_⟩ <;>
    simp [Restaurant.format_announcement, h, optTruthy]

/-- Witness for C9: a record with no business activity renders the same
with the toggle on and off. -/
theorem c9_witness :
    ({ name := "A", address := "B", zip_code := "60601",
        license_description := "RF" } : Restaurant).business_activity = none ∧
    ({ name := "A", address := "B", zip_code := "60601",
        license_description := "RF" } : Restaurant).format_announcement
        { ({} : Config) with
            features := { ({} : Config).features with include_business_activity := true } } =
      ({ name := "A", address := "B", zip_code := "60601",
          license_description := "RF" } : Restaurant).format_announcement
        { ({} : Config) with
            features := { ({} : Config).features with include_business_activity := false } } :=
  ⟨rfl,
   (c9_render_omission
      { name := "A", address := "B", zip_code := "60601", license_description := "RF" }
      ({} : Config)).1 rfl⟩

/-- C10: `post_restaurant` returns `False` exactly when the record's
outcome is filtered-out (`skipped`) or failed-after-retries (`failed`),
so the boolean alone cannot distinguish the two; and the cycle's counter
counts exactly the `published` outcomes. -/
theorem c10_false_ambiguity (c : Config) (w : Nat → Bool) (r : Restaurant)
    (s : BSState) (rs : List Restaurant) (n : Nat) :
    ((post_restaurant c w r s).1 = false ↔
      (outcome_of c w r s = .skipped ∨ outcome_of c w r s = .failed)) ∧
    (process_list c w rs n s).1 = n + (outcomes_list c w rs s).count .published := by
  constructor
  · have h := outcome_published_iff c w r s
    rcases ho : outcome_of c w r s with _ | _ | _ <;> rw [ho] at h <;> simp_all
  · exact process_list_count c w rs n s

end ChicagoBot
